import Mathlib

/-!
Verification of the wsaver window save/restore tool (src/wsaver/wsaver.py)
against its natural-language specification.

The Python source is shallowly embedded: each function of the source is
translated into a Lean definition of the same name.  External collaborators
(the wmctrl/xprop/ps shell commands, the filesystem) are modelled as
explicit environment parameters; Python runtime exceptions are modelled with
Except / Option; Python dicts are modelled as insertion-ordered association
lists whose keys carry their Python type (string or int), so that the
source's mixed-type dict accesses keep their Python semantics (a lookup with
an int key in a str-keyed dict raises KeyError).
-/

namespace WSaver

/-- Python runtime exceptions that the embedded code can raise. -/
inductive PyErr where
  | typeError
  | keyError
  | indexError
  | valueError
deriving DecidableEq

instance {ε α : Type} [DecidableEq ε] [DecidableEq α] : DecidableEq (Except ε α) := fun x y =>
  match x, y with
  | Except.ok a, Except.ok b =>
    if h : a = b then isTrue (by rw [h])
    else isFalse (fun hc => by injection hc; contradiction)
  | Except.error a, Except.error b =>
    if h : a = b then isTrue (by rw [h])
    else isFalse (fun hc => by injection hc; contradiction)
  | Except.ok _, Except.error _ => isFalse (fun hc => by cases hc)
  | Except.error _, Except.ok _ => isFalse (fun hc => by cases hc)

/-- Python sequence indexing `l[i]`: IndexError when out of range. -/
def pyGet {α : Type} (l : List α) (i : Nat) : Except PyErr α :=
  match l.get? i with
  | some a => Except.ok a
  | none => Except.error PyErr.indexError

/-- Whitespace characters recognised by Python's `str.split()` / `int()`. -/
def isWS (c : Char) : Bool :=
  c = ' ' || c = '\t' || c = '\n' || c = '\r' || c = '\x0b' || c = '\x0c'

/-- Does list `n` start list `h`?  (Helper for the Python `in` operator.) -/
def startsList : List Char → List Char → Bool
  | [], _ => true
  | _ :: _, [] => false
  | a :: as, b :: bs => a = b && startsList as bs

/-- Does `n` occur contiguously inside `h`?  (Helper for Python `in`.) -/
def occursIn (n : List Char) : List Char → Bool
  | [] => decide (n = [])
  | c :: t => startsList n (c :: t) || occursIn n t

/-- Python's substring test `needle in hay` on strings. -/
def strIn (needle hay : String) : Bool := occursIn needle.data hay.data

/-- Scanner for whitespace splitting: `acc` is the word being read. -/
def pySplitAux : List Char → List Char → List (List Char)
  | [], acc => if acc = [] then [] else [acc]
  | c :: cs, acc =>
    if isWS c then
      if acc = [] then pySplitAux cs [] else acc :: pySplitAux cs []
    else pySplitAux cs (acc ++ [c])

/-- Whitespace splitting of a character list, as Python's `str.split()`
with no separator argument: splits on runs of whitespace and never
produces empty fields. -/
def pySplitChars (l : List Char) : List (List Char) := pySplitAux l []

/-- Python's `line.split()` on a string. -/
def pySplit (s : String) : List String := (pySplitChars s.data).map String.mk

/-- Decimal digit character, as used by Python's str() on integers. -/
def digitChar10 (d : Nat) : Char := Char.ofNat (48 + d)

/-- Fuel-bounded digit accumulation (least significant digit innermost),
the fuel always suffices when it exceeds the number being rendered. -/
def natDigsAux : Nat → Nat → List Char → List Char
  | 0, _, acc => acc
  | fuel + 1, n, acc =>
    if n < 10 then digitChar10 n :: acc
    else natDigsAux fuel (n / 10) (digitChar10 (n % 10) :: acc)

/-- Decimal rendering of a natural number (most significant digit first),
as produced by Python's str()/f-string interpolation. -/
def natDigs (n : Nat) : List Char := natDigsAux (n + 1) n []

/-- Decimal rendering of an integer, as Python's str(). -/
def intChars (i : Int) : List Char :=
  if i < 0 then '-' :: natDigs (-i).toNat else natDigs i.toNat

/-- Decimal rendering of an integer as a string, as Python's str(). -/
def intStr (i : Int) : String := String.mk (intChars i)

/-- Value of a decimal digit character, none for a non-digit. -/
def digVal (c : Char) : Option Nat :=
  if 48 ≤ c.toNat ∧ c.toNat ≤ 57 then some (c.toNat - 48) else none

/-- Accumulating decimal evaluation of a digit string. -/
def digsValAux : List Char → Nat → Option Nat
  | [], acc => some acc
  | c :: cs, acc =>
    match digVal c with
    | some d => digsValAux cs (10 * acc + d)
    | none => none

/-- Value of a non-empty all-digit character list, none otherwise. -/
def digsVal : List Char → Option Nat
  | [] => none
  | c :: cs => digsValAux (c :: cs) 0

/-- Python's `int()` on a stripped character list: optional sign then digits. -/
def pyIntChars : List Char → Option Int
  | [] => none
  | c :: cs =>
    if c = '-' then (digsVal cs).map (fun n => -(n : Int))
    else if c = '+' then (digsVal cs).map (fun n => (n : Int))
    else (digsVal (c :: cs)).map (fun n => (n : Int))

/-- Strip leading and trailing whitespace, as Python's `int()` does. -/
def stripWS (l : List Char) : List Char :=
  ((l.dropWhile isWS).reverse.dropWhile isWS).reverse

/-- Python's `int(s)` on a string: some value, or none for ValueError. -/
def pyInt (s : String) : Option Int := pyIntChars (stripWS s.data)

/-- Python's `int(s)` raising ValueError, for use in monadic code. -/
def pyIntE (s : String) : Except PyErr Int :=
  match pyInt s with
  | some i => Except.ok i
  | none => Except.error PyErr.valueError

/-- Python dict keys carry their runtime type: the source stores string
keys but later looks the dict up with an int, which must miss. -/
inductive PyKey where
  | s (v : String)
  | i (v : Nat)
deriving DecidableEq

/-- Insertion-ordered association list modelling a Python dict. -/
abbrev PyDict (α : Type) : Type := List (PyKey × α)

/-- Python `d[k] = v`: overwrite in place, or append a fresh key. -/
def dictSet {α : Type} (d : PyDict α) (k : PyKey) (v : α) : PyDict α :=
  if d.any (fun e => e.1 = k) then d.map (fun e => if e.1 = k then (k, v) else e)
  else d ++ [(k, v)]

/-- Python `d[k]` lookup: KeyError when the key is absent. -/
def dictFind {α : Type} (d : PyDict α) (k : PyKey) : Except PyErr α :=
  match d.find? (fun e => e.1 = k) with
  | some e => Except.ok e.2
  | none => Except.error PyErr.keyError

/-- Python `d.pop(k)` with no default: KeyError when the key is absent. -/
def dictPop {α : Type} (d : PyDict α) (k : PyKey) : Except PyErr (PyDict α) :=
  if d.any (fun e => e.1 = k) then Except.ok (d.filter (fun e => !(e.1 = k : Bool)))
  else Except.error PyErr.keyError

/-- Python `list(d)` / iteration over a dict: its keys in insertion order. -/
def dictKeys {α : Type} (d : PyDict α) : List PyKey := d.map (fun e => e.1)

/-- Python `d[k].append(v)` for an existing key (the source only appends to
keys it has just created, so the key is always present). -/
def dictAppend {α : Type} (d : PyDict (List α)) (k : PyKey) (v : α) : PyDict (List α) :=
  d.map (fun e => if e.1 = k then (e.1, e.2 ++ [v]) else e)

/-! ## Data model

One parsed line of `wmctrl -lpG` output (the window snapshot).  The pid
column is numeric in the gateway's output, so it is carried as an integer;
the remaining columns are carried as the raw strings the source splits out.
-/

/-- One window of the snapshot, fields as in the source's `lpg` namedtuple. -/
structure lpg where
  win_id : String
  dtop : String
  pid : Int
  x : String
  y : String
  width : String
  height : String
  uname : String
  title : String
deriving DecidableEq

/-- External window-manager/process-table oracles: the result of
`check_window` (xprop classification) per window id, and of `pid_name`
(`ps -q pid -o comm=`) per process id. -/
structure WMEnv where
  checkWindow : String → Bool
  pidName : Int → String

/-- One parsed line of the persisted .windowlist file, fields as in the
source's `wlist` namedtuple: seven whitespace-separated fields. -/
structure wlist where
  app : String
  pid : String
  dtop : String
  x : String
  y : String
  w : String
  h : String
deriving DecidableEq

/-- Parsing of one persisted line: `wlist._make(this_line.split())`, which
raises TypeError unless the split yields exactly seven fields. -/
def parseWlist (line : String) : Except PyErr wlist :=
  match pySplit line with
  | [a, p, d, x, y, w, h] => Except.ok ⟨a, p, d, x, y, w, h⟩
  | _ => Except.error PyErr.typeError

/-- One row of the `relevant` list built by `read_windows`:
app name, pid, then the five integer geometry fields. -/
structure Relevant where
  app : String
  pid : Int
  dtop : Int
  x : Int
  y : Int
  w : Int
  h : Int
deriving DecidableEq

/-- Title-bar height constant from the source. -/
def WIN_TITLE_HEIGHT : Int := 24

/-- Left-justified space padding, Python's fixed-width format on strings. -/
def padR (s : List Char) (n : Nat) : List Char :=
  s ++ List.replicate (n - s.length) ' '

/-- Right-justified space padding, Python's fixed-width format. -/
def padL (s : List Char) (n : Nat) : List Char :=
  List.replicate (n - s.length) ' ' ++ s

/-- Source `format_relevant`: one fixed-width text line per record,
app left-justified to 15, then pid, desktop, x, y, width, height
right-justified to 8, 2, 5, 5, 5, 5, separated by single spaces. -/
def format_relevant (r : Relevant) : String :=
  String.mk
    (padR r.app.data 15 ++ [' '] ++ padL (intChars r.pid) 8 ++ [' '] ++
     padL (intChars r.dtop) 2 ++ [' '] ++ padL (intChars r.x) 5 ++ [' '] ++
     padL (intChars r.y) 5 ++ [' '] ++ padL (intChars r.w) 5 ++ [' '] ++
     padL (intChars r.h) 5)

/-- CLI options after argparse, fields and defaults as in `main`. -/
structure Opts where
  save_windows : Bool
  no_file : Bool
  restore_windows : Bool
  dry_run : Bool
deriving DecidableEq

/-- Argparse defaults: `--no-file` is store-true with default True. -/
def defaultOpts : Opts := ⟨false, true, false, false⟩

/-- One argparse step: each flag is store-true, anything else is collected
into the `rest` remainder and leaves the options unchanged. -/
def argStep (o : Opts) (a : String) : Opts :=
  if a = "-s" || a = "--save" then { o with save_windows := true }
  else if a = "-n" || a = "--no-file" then { o with no_file := true }
  else if a = "-r" || a = "--restore" then { o with restore_windows := true }
  else if a = "-d" || a = "--dry-run" then { o with dry_run := true }
  else o

/-- The option values produced by `parser.parse_args(args)` in `main`. -/
def parse_args (args : List String) : Opts := args.foldl argStep defaultOpts

/-! ## Effects

Observable external actions: the mutating wmctrl commands issued by
`reposition_window`, the process spawn and sleeps of `open_appwindow`,
and the save-mode outputs of `read_windows`. -/

/-- Mutating window-manager commands and process effects. -/
inductive Cmd where
  | removeMaxHorz (w_id : String)
  | removeMaxVert (w_id : String)
  | setDesktop (w_id dtop : String)
  | setGeometry (w_id : String) (x y : Int) (w h : String)
  | spawnProc (cmd : String)
  | sleepHalf
deriving DecidableEq

/-- Outputs of the save path (`read_windows`). -/
inductive SaveEff where
  | stdoutLine (s : String)
  | fileWrite (lines : List String)
deriving DecidableEq

/-! ## Embedded program functions -/

/-- Source `read_windows` helper: the `relevant` list comprehension.
Windows failing `check_window` are dropped; for the rest the process name
is resolved and the five geometry columns go through `int()`, whose
ValueError aborts the comprehension. -/
def relevantOf (env : WMEnv) (w_list : List lpg) : Except PyErr (List Relevant) :=
  (w_list.filter (fun w => env.checkWindow w.win_id)).mapM (fun w => do
    let d ← pyIntE w.dtop
    let x ← pyIntE w.x
    let y ← pyIntE w.y
    let wd ← pyIntE w.width
    let ht ← pyIntE w.height
    pure ⟨env.pidName w.pid, w.pid, d, x, y, wd, ht⟩)

/-- Source `read_windows`: print each relevant record to stdout when
`no_file` is set, else write all lines to the persisted file. -/
def read_windows (env : WMEnv) (w_list : List lpg) (opts : Opts) :
    List SaveEff × Option PyErr :=
  match relevantOf env w_list with
  | Except.error e => ([], some e)
  | Except.ok relevant =>
    if opts.no_file then
      (relevant.map (fun r => SaveEff.stdoutLine (format_relevant r)), none)
    else
      ([SaveEff.fileWrite (relevant.map format_relevant)], none)

/-- First phase of `read_window_ids`: the dict comprehension
creating an empty queue per app name of each retained window. -/
def rwiBase (env : WMEnv) (w_list : List lpg) : PyDict (List (Int × String)) :=
  w_list.foldl
    (fun d w =>
      if env.checkWindow w.win_id then dictSet d (PyKey.s (env.pidName w.pid)) [] else d)
    []

/-- Source `read_window_ids`: dict comprehension creating an empty queue
per app name of each retained window, then a second pass over the snapshot
sorted by ascending pid (Python's stable `sorted`, modelled by a stable
insertion sort) appending `[pid, win_id]` handles to their app's queue. -/
def read_window_ids (env : WMEnv) (w_list : List lpg) :
    PyDict (List (Int × String)) :=
  (List.insertionSort (fun a b => a.pid ≤ b.pid) w_list).foldl
    (fun d w =>
      if env.checkWindow w.win_id then
        dictAppend d (PyKey.s (env.pidName w.pid)) (w.pid, w.win_id)
      else d)
    (rwiBase env w_list)

/-- Source `reposition_window`: the three idempotent wmctrl commands then
the geometry command, which subtracts a further `v_offset = 35` from the
y coordinate it is given. -/
def reposition_window (w_id dtop : String) (x y : Int) (w h : String) : List Cmd :=
  let v_offset : Int := 35
  [Cmd.removeMaxHorz w_id, Cmd.removeMaxVert w_id, Cmd.setDesktop w_id dtop,
   Cmd.setGeometry w_id x (y - v_offset) w h]

/-- Poll-time environment of one `open_appwindow` call: the raw pre-spawn
`wmctrl -lp` output (a single string, later used for Python substring
tests), and per-attempt window-list lines and `ps -e ww` lines. -/
structure SpawnEnv where
  ws1 : String
  wsAt : Nat → List String
  psAt : Nat → List String

/-- Inner comprehension of `open_appwindow`:
`[(p, w[0]) for p in ps_lines if app in p and w[2] in p]` for one new
window `w` (its first three whitespace fields).  Indexing a too-short
field list raises IndexError; `and` short-circuits. -/
def procsFor (ps : List String) (app : String) (wt : List String) :
    Except PyErr (List (String × String)) :=
  match ps with
  | [] => Except.ok []
  | p :: rest =>
    if strIn app p then do
      let w2 ← pyGet wt 2
      if strIn w2 p then do
        let w0 ← pyGet wt 0
        let tail ← procsFor rest app wt
        pure ((p, w0) :: tail)
      else procsFor rest app wt
    else procsFor rest app wt

/-- Polling loop of `open_appwindow` (`while t < MAX_TRIES`), with
structural fuel 30 - t.  Each attempt recomputes the new-window list
`ws2` (lines not occurring as substrings of the pre-spawn output) and the
nested `procs` comprehension; a non-empty `procs` (which merely means a
non-empty `ws2`) sleeps and then indexes `procs[0][0][1]`, repositioning
that window and stopping; otherwise it sleeps and retries. -/
def openLoop (env : SpawnEnv) (app dtop : String) (x y : Int) (w h : String) :
    Nat → Nat → List Cmd × Option PyErr
  | 0, _ => ([], none)
  | fuel + 1, t =>
    let ws2 := ((env.wsAt t).filter (fun l => !strIn l env.ws1)).map
      (fun l => (pySplit l).take 3)
    match ws2.mapM (fun wt => procsFor (env.psAt t) app wt) with
    | Except.error e => ([], some e)
    | Except.ok procs =>
      if procs.length > 0 then
        match (do
          let p0 ← pyGet procs 0
          let pr ← pyGet p0 0
          pure pr.2 : Except PyErr String) with
        | Except.error e => ([Cmd.sleepHalf], some e)
        | Except.ok w_id => (Cmd.sleepHalf :: reposition_window w_id dtop x y w h, none)
      else
        let r := openLoop env app dtop x y w h fuel (t + 1)
        (Cmd.sleepHalf :: r.1, r.2)

/-- Source `open_appwindow`: per-application command fixes (gedit new
window flag, gnome-terminal and chrome name overrides), the Popen spawn,
the chrome process-name fix, then the bounded poll (`MAX_TRIES = 30`). -/
def open_appwindow (env : SpawnEnv) (app dtop : String) (x y : Int) (w h : String) :
    List Cmd × Option PyErr :=
  let option := if app = "gedit" then "--new-window" else ""
  let app1 :=
    if strIn "gnome-terminal" app then "gnome-terminal"
    else if strIn "chrome" app then "/usr/bin/google-chrome-stable"
    else app
  let app2 := if strIn "chrome" app1 then "chrome" else app1
  let r := openLoop env app2 dtop x y w h 30 0
  (Cmd.spawnProc (app1 ++ " " ++ option) :: r.1, r.2)

/-- Environment of one restore run: the viewport-correction list from
`get_vpdata`, the oracles and snapshot feeding `read_window_ids`, the
persisted file contents (none when the file does not exist), and the
spawn-time environment seen by the k-th `open_appwindow` call. -/
structure RestoreEnv where
  res : List Int
  wm : WMEnv
  w_list : List lpg
  fileLines : Option (List String)
  spawnEnv : Nat → SpawnEnv

/-- Match/spawn classification of one saved record, as decided by the
`if f.app in apps` test of `run_remembered`. -/
inductive Decision where
  | matched (app : String)
  | spawn (app : String)
deriving DecidableEq

/-- Observable outcome of a restore run. -/
structure RunOut where
  decisions : List Decision
  cmds : List Cmd
  reports : List String
  running : PyDict (List (Int × String))
  spawnIdx : Nat
  err : Option PyErr

/-- Python `a[0]` on a dict key: a one-character string for a string key
(IndexError on an empty string), TypeError for an int key. -/
def keyHead : PyKey → Except PyErr String
  | PyKey.s v =>
    match v.data with
    | [] => Except.error PyErr.indexError
    | c :: _ => Except.ok (String.mk [c])
  | PyKey.i _ => Except.error PyErr.typeError

/-- Outcome of processing one line of the persisted file. -/
structure StepOut where
  ds : List Decision
  cs : List Cmd
  err : Option PyErr
  running : PyDict (List (Int × String))
  spawnIdx : Nat

/-- Shared head of one `run_remembered` loop iteration, identical in dry
and normal mode: parse the line into seven fields, convert and correct the
coordinates (`int()` ValueError, viewport IndexError), and rebuild
`apps = [a[0] for a in running]` (the first character of each dict key,
since iterating a dict yields its keys).  Returns the parsed fields, the
corrected x and y, and `apps`. -/
def classifyLine (env : RestoreEnv) (running : PyDict (List (Int × String)))
    (line : String) : Except PyErr (wlist × Int × Int × List String) := do
  let f ← parseWlist line
  let xi ← pyIntE f.x
  let r0 ← pyGet env.res 0
  let yi ← pyIntE f.y
  let r1 ← pyGet env.res 1
  let apps ← (dictKeys running).mapM keyHead
  pure (f, xi - r0, yi - r1 - WIN_TITLE_HEIGHT, apps)

/-- One iteration of the `run_remembered` while loop: the shared head,
then either the match branch (whose `running[idx]` lookup and
`running.pop(idx)` use the int `idx` as a dict key) or, when not a dry
run, the spawn branch. -/
def restoreStep (env : RestoreEnv) (opts : Opts)
    (running : PyDict (List (Int × String))) (si : Nat) (line : String) : StepOut :=
  match classifyLine env running line with
  | Except.error e => ⟨[], [], some e, running, si⟩
  | Except.ok (f, x, y, apps) =>
              if f.app ∈ apps then
                let d := Decision.matched f.app
                let idx := apps.indexOf f.app
                if opts.dry_run then
                  match dictPop running (PyKey.i idx) with
                  | Except.error e => ⟨[d], [], some e, running, si⟩
                  | Except.ok running1 => ⟨[d], [], none, running1, si⟩
                else
                  match dictFind running (PyKey.i idx) with
                  | Except.error e => ⟨[d], [], some e, running, si⟩
                  | Except.ok q =>
                    match pyGet q 1 with
                    | Except.error e => ⟨[d], [], some e, running, si⟩
                    | Except.ok handle =>
                      let cs := reposition_window handle.2 f.dtop x y f.w f.h
                      match dictPop running (PyKey.i idx) with
                      | Except.error e => ⟨[d], cs, some e, running, si⟩
                      | Except.ok running1 => ⟨[d], cs, none, running1, si⟩
              else
                let d := Decision.spawn f.app
                if opts.dry_run then ⟨[d], [], none, running, si⟩
                else
                  let r := open_appwindow (env.spawnEnv si) f.app f.dtop x y f.w f.h
                  ⟨[d], r.1, r.2, running, si + 1⟩

/-- The `run_remembered` while loop over the persisted lines: each line is
processed (and its effects issued) as it is read; a raised exception
aborts the remainder of the loop. -/
def restoreLoop (env : RestoreEnv) (opts : Opts) :
    List String → PyDict (List (Int × String)) → Nat → RunOut
  | [], running, si => ⟨[], [], [], running, si, none⟩
  | line :: rest, running, si =>
    let s := restoreStep env opts running si line
    match s.err with
    | some e => ⟨s.ds, s.cs, [], s.running, s.spawnIdx, some e⟩
    | none =>
      let r := restoreLoop env opts rest s.running s.spawnIdx
      ⟨s.ds ++ r.decisions, s.cs ++ r.cmds, r.reports, r.running, r.spawnIdx, r.err⟩

/-- Source `run_remembered`: read the viewport data and the running-window
index, then process the persisted file line by line; when the file does
not exist, report a message and touch nothing. -/
def run_remembered (env : RestoreEnv) (opts : Opts) : RunOut :=
  let running := read_window_ids env.wm env.w_list
  match env.fileLines with
  | some lines => restoreLoop env opts lines running 0
  | none => ⟨[], [], ["File not found"], running, 0, none⟩

/-- Batch form of the persisted-file parsing (the spec's load): parse
every line, aborting at the first malformed one. -/
def loadLines (ls : List String) : Except PyErr (List wlist) := ls.mapM parseWlist

/-- Batch form of the save path when the destination is the file: one
formatted line per record. -/
def saveLines (recs : List Relevant) : List String := recs.map format_relevant

/-- String form of one loaded record as `load(save(...))` reproduces it. -/
def wlistOf (r : Relevant) : wlist :=
  ⟨r.app, intStr r.pid, intStr r.dtop, intStr r.x, intStr r.y, intStr r.w, intStr r.h⟩

/-- Well-formedness of an application name for the persisted format:
non-empty and free of whitespace. -/
def wellFormedApp (s : String) : Prop :=
  s ≠ "" ∧ ∀ c ∈ s.data, isWS c = false

instance (s : String) : Decidable (wellFormedApp s) := by
  unfold wellFormedApp; infer_instance

/-! ## Lemmas about whitespace splitting -/

lemma pySplitAux_word (w : List Char) (hw : ∀ c ∈ w, isWS c = false) :
    ∀ (rest acc : List Char), pySplitAux (w ++ rest) acc = pySplitAux rest (acc ++ w) := by
  induction w with
  | nil => intro rest acc; simp
  | cons c cs ih =>
    intro rest acc
    have hc : isWS c = false := hw c (by simp)
    simp only [List.cons_append, pySplitAux, hc, Bool.false_eq_true, if_false, List.append_eq]
    rw [ih (fun x hx => hw x (by simp [hx])) rest (acc ++ [c])]
    simp

lemma pySplitAux_spaces (k : Nat) (rest : List Char) :
    pySplitAux (List.replicate k ' ' ++ rest) [] = pySplitAux rest [] := by
  induction k with
  | zero => simp
  | succ n ih =>
    rw [List.replicate_succ, List.cons_append]
    simp only [pySplitAux, show isWS ' ' = true from rfl, if_true, ih]

lemma pySplitAux_emit (c : Char) (hc : isWS c = true) (rest acc : List Char) (ha : acc ≠ []) :
    pySplitAux (c :: rest) acc = acc :: pySplitAux rest [] := by
  simp [pySplitAux, hc, ha]

lemma pySplitAux_token (w R : List Char) (k : Nat)
    (hne : w ≠ []) (hw : ∀ c ∈ w, isWS c = false) :
    pySplitAux (w ++ (List.replicate (k + 1) ' ' ++ R)) [] = w :: pySplitAux R [] := by
  rw [pySplitAux_word w hw _ [], List.nil_append, List.replicate_succ, List.cons_append,
    pySplitAux_emit ' ' rfl _ _ hne, pySplitAux_spaces]

lemma pySplitAux_last (w : List Char) (hne : w ≠ []) (hw : ∀ c ∈ w, isWS c = false) :
    pySplitAux w [] = [w] := by
  have h := pySplitAux_word w hw [] []
  rw [List.append_nil, List.nil_append] at h
  rw [h]
  simp [pySplitAux, hne]

lemma seps_eq (a b : Nat) (R : List Char) :
    List.replicate a ' ' ++ ([' '] ++ (List.replicate b ' ' ++ R)) =
    List.replicate (a + b + 1) ' ' ++ R := by
  rw [show a + b + 1 = a + (b + 1) from rfl, List.replicate_add, List.replicate_succ]
  simp

lemma sep1_eq (b : Nat) (R : List Char) :
    [' '] ++ (List.replicate b ' ' ++ R) = List.replicate (b + 1) ' ' ++ R := by
  rw [List.replicate_succ]
  rfl

/-! ## Lemmas about decimal rendering and parsing -/

lemma digVal_digitChar10 (d : Nat) (h : d < 10) : digVal (digitChar10 d) = some d := by
  interval_cases d <;> decide

lemma isWS_digitChar10 (d : Nat) (h : d < 10) : isWS (digitChar10 d) = false := by
  interval_cases d <;> decide

lemma digitChar10_ne_dash (d : Nat) (h : d < 10) : digitChar10 d ≠ '-' := by
  interval_cases d <;> decide

lemma digitChar10_ne_plus (d : Nat) (h : d < 10) : digitChar10 d ≠ '+' := by
  interval_cases d <;> decide

lemma digsValAux_append (xs ys : List Char) (a : Nat) :
    digsValAux (xs ++ ys) a =
      match digsValAux xs a with
      | some b => digsValAux ys b
      | none => none := by
  induction xs generalizing a with
  | nil => simp [digsValAux]
  | cons c cs ih =>
    simp only [List.cons_append, digsValAux]
    cases digVal c with
    | none => simp
    | some d => simp [ih]

lemma natDigsAux_spec : ∀ (fuel n : Nat) (acc : List Char), n < fuel →
    ∃ ds, natDigsAux fuel n acc = ds ++ acc ∧ ds ≠ [] ∧
      (∀ c ∈ ds, ∃ d, d < 10 ∧ c = digitChar10 d) ∧
      ∀ a, digsValAux ds a = some (a * 10 ^ ds.length + n) := by
  intro fuel
  induction fuel with
  | zero => intro n acc h; omega
  | succ f ih =>
    intro n acc h
    by_cases hn : n < 10
    · refine ⟨[digitChar10 n], by simp [natDigsAux, hn], by simp, ?_, ?_⟩
      · intro c hc
        simp only [List.mem_singleton] at hc
        exact ⟨n, hn, hc⟩
      · intro a
        simp [digsValAux, digVal_digitChar10 n hn]
        omega
    · have hdiv : n / 10 < n := Nat.div_lt_self (by omega) (by omega)
      obtain ⟨ds, heq, hne, hdig, hval⟩ :=
        ih (n / 10) (digitChar10 (n % 10) :: acc) (by omega)
      refine ⟨ds ++ [digitChar10 (n % 10)], ?_, by simp, ?_, ?_⟩
      · simp only [natDigsAux, hn, if_false, heq, List.append_assoc, List.singleton_append]
      · intro c hc
        rcases List.mem_append.1 hc with h1 | h1
        · exact hdig c h1
        · simp only [List.mem_singleton] at h1
          exact ⟨n % 10, by omega, h1⟩
      · intro a
        rw [digsValAux_append, hval a]
        simp only [digsValAux, digVal_digitChar10 (n % 10) (by omega)]
        have hmod : 10 * (n / 10) + n % 10 = n := by omega
        have : 10 * (a * 10 ^ ds.length + n / 10) + n % 10 =
            a * 10 ^ (ds ++ [digitChar10 (n % 10)]).length + n := by
          simp only [List.length_append, List.length_singleton, pow_succ]
          ring_nf
          omega
        rw [this]

lemma natDigs_spec (n : Nat) :
    natDigs n ≠ [] ∧ (∀ c ∈ natDigs n, ∃ d, d < 10 ∧ c = digitChar10 d) ∧
      digsVal (natDigs n) = some n := by
  obtain ⟨ds, heq, hne, hdig, hval⟩ := natDigsAux_spec (n + 1) n [] (by omega)
  rw [List.append_nil] at heq
  rw [show natDigs n = natDigsAux (n + 1) n [] from rfl, heq]
  refine ⟨hne, hdig, ?_⟩
  cases ds with
  | nil => exact absurd rfl hne
  | cons c cs =>
    show digsValAux (c :: cs) 0 = some n
    rw [hval 0]
    simp

lemma intChars_nonempty (i : Int) : intChars i ≠ [] := by
  unfold intChars
  split
  · simp
  · exact (natDigs_spec i.toNat).1

lemma intChars_noWS (i : Int) : ∀ c ∈ intChars i, isWS c = false := by
  intro c hc
  unfold intChars at hc
  split at hc
  · rcases List.mem_cons.1 hc with h | h
    · rw [h]; rfl
    · obtain ⟨d, hd, hcd⟩ := (natDigs_spec _).2.1 c h
      rw [hcd]; exact isWS_digitChar10 d hd
  · obtain ⟨d, hd, hcd⟩ := (natDigs_spec _).2.1 c hc
    rw [hcd]; exact isWS_digitChar10 d hd

lemma stripWS_id (l : List Char) (h : ∀ c ∈ l, isWS c = false) : stripWS l = l := by
  have drop1 : ∀ (m : List Char), (∀ c ∈ m, isWS c = false) → m.dropWhile isWS = m := by
    intro m hm
    cases m with
    | nil => rfl
    | cons c cs => rw [List.dropWhile_cons_of_neg (by simp [hm c (by simp)])]
  unfold stripWS
  rw [drop1 l h, drop1 l.reverse (fun c hc => h c (List.mem_reverse.1 hc)), List.reverse_reverse]

lemma pyIntChars_cons (c : Char) (cs : List Char) (h1 : c ≠ '-') (h2 : c ≠ '+') :
    pyIntChars (c :: cs) = (digsVal (c :: cs)).map (fun n => (n : Int)) := by
  simp only [pyIntChars]
  rw [if_neg h1, if_neg h2]

lemma pyIntChars_dash (cs : List Char) :
    pyIntChars ('-' :: cs) = (digsVal cs).map (fun n => -(n : Int)) := rfl

lemma pyIntChars_natDigs (n : Nat) :
    pyIntChars (natDigs n) = some (n : Int) := by
  obtain ⟨hne, hdig, hval⟩ := natDigs_spec n
  cases hds : natDigs n with
  | nil => exact absurd hds hne
  | cons c cs =>
    obtain ⟨d, hd, hcd⟩ := hdig c (by rw [hds]; simp)
    rw [hds] at hval
    rw [pyIntChars_cons c cs (by rw [hcd]; exact digitChar10_ne_dash d hd)
      (by rw [hcd]; exact digitChar10_ne_plus d hd), hval]
    rfl

lemma pyInt_intStr (i : Int) : pyInt (intStr i) = some i := by
  unfold pyInt intStr
  rw [show (String.mk (intChars i)).data = intChars i from rfl,
    stripWS_id _ (intChars_noWS i)]
  unfold intChars
  split
  · next hneg =>
    rw [pyIntChars_dash, (natDigs_spec (-i).toNat).2.2]
    have hcast : (((-i).toNat : Nat) : Int) = -i := by omega
    simp [hcast]
  · next hpos =>
    rw [pyIntChars_natDigs]
    congr 1
    omega

/-! ## Round trip of the persisted-file format -/

lemma pySplitAux_format (r : Relevant) (hne : r.app.data ≠ [])
    (hws : ∀ c ∈ r.app.data, isWS c = false) :
    pySplitAux
      (padR r.app.data 15 ++ [' '] ++ padL (intChars r.pid) 8 ++ [' '] ++
       padL (intChars r.dtop) 2 ++ [' '] ++ padL (intChars r.x) 5 ++ [' '] ++
       padL (intChars r.y) 5 ++ [' '] ++ padL (intChars r.w) 5 ++ [' '] ++
       padL (intChars r.h) 5) [] =
    [r.app.data, intChars r.pid, intChars r.dtop, intChars r.x, intChars r.y,
     intChars r.w, intChars r.h] := by
  unfold padR padL
  simp only [List.append_assoc]
  rw [seps_eq, pySplitAux_token _ _ _ hne hws,
    sep1_eq, pySplitAux_token _ _ _ (intChars_nonempty r.pid) (intChars_noWS r.pid),
    sep1_eq, pySplitAux_token _ _ _ (intChars_nonempty r.dtop) (intChars_noWS r.dtop),
    sep1_eq, pySplitAux_token _ _ _ (intChars_nonempty r.x) (intChars_noWS r.x),
    sep1_eq, pySplitAux_token _ _ _ (intChars_nonempty r.y) (intChars_noWS r.y),
    sep1_eq, pySplitAux_token _ _ _ (intChars_nonempty r.w) (intChars_noWS r.w),
    pySplitAux_last _ (intChars_nonempty r.h) (intChars_noWS r.h)]

lemma pySplit_format (r : Relevant) (hwf : wellFormedApp r.app) :
    pySplit (format_relevant r) =
      [r.app, intStr r.pid, intStr r.dtop, intStr r.x, intStr r.y, intStr r.w,
       intStr r.h] := by
  obtain ⟨hne, hws⟩ := hwf
  have hne' : r.app.data ≠ [] := fun hd => hne (String.ext hd)
  show (pySplitAux (format_relevant r).data []).map String.mk = _
  rw [show (format_relevant r).data =
      (padR r.app.data 15 ++ [' '] ++ padL (intChars r.pid) 8 ++ [' '] ++
       padL (intChars r.dtop) 2 ++ [' '] ++ padL (intChars r.x) 5 ++ [' '] ++
       padL (intChars r.y) 5 ++ [' '] ++ padL (intChars r.w) 5 ++ [' '] ++
       padL (intChars r.h) 5) from rfl, pySplitAux_format r hne' hws]
  rfl

lemma parseWlist_format (r : Relevant) (hwf : wellFormedApp r.app) :
    parseWlist (format_relevant r) = Except.ok (wlistOf r) := by
  unfold parseWlist
  rw [pySplit_format r hwf]
  rfl

lemma loadLines_saveLines (recs : List Relevant)
    (hwf : ∀ r ∈ recs, wellFormedApp r.app) :
    loadLines (saveLines recs) = Except.ok (recs.map wlistOf) := by
  induction recs with
  | nil => rfl
  | cons r rs ih =>
    have hih := ih (fun x hx => hwf x (by simp [hx]))
    unfold loadLines saveLines at hih ⊢
    rw [List.map_cons, List.mapM_cons, parseWlist_format r (hwf r (by simp)), hih,
      List.map_cons]
    rfl

lemma list_len7 {α : Type} (l : List α) (hl : l.length = 7) :
    ∃ a b c d e f g, l = [a, b, c, d, e, f, g] := by
  rcases l with _ | ⟨a, _ | ⟨b, _ | ⟨c, _ | ⟨d, _ | ⟨e, _ | ⟨f, _ | ⟨g, t⟩⟩⟩⟩⟩⟩⟩ <;>
    simp_all

lemma parseWlist_ok_iff (line : String) :
    (∃ f, parseWlist line = Except.ok f ∧
       pySplit line = [f.app, f.pid, f.dtop, f.x, f.y, f.w, f.h]) ↔
    (pySplit line).length = 7 := by
  constructor
  · rintro ⟨f, _, hsplit⟩
    rw [hsplit]
    rfl
  · intro hlen
    obtain ⟨a, p, d, x, y, w, hh, hs⟩ := list_len7 _ hlen
    exact ⟨⟨a, p, d, x, y, w, hh⟩, by simp [parseWlist, hs], hs⟩

lemma parseWlist_err (line : String) (hlen : (pySplit line).length ≠ 7) :
    parseWlist line = Except.error PyErr.typeError := by
  unfold parseWlist
  rcases hs : pySplit line with _ | ⟨a, _ | ⟨b, _ | ⟨c, _ | ⟨d, _ | ⟨e, _ | ⟨f, _ | ⟨g, t⟩⟩⟩⟩⟩⟩⟩ <;>
    first
      | rfl
      | (rw [hs] at hlen
         cases t with
         | nil => exact absurd rfl hlen
         | cons u us => rfl)

/-! ## Lemmas about the dict model -/

lemma find?_map_keyFixed {α β : Type} (d : List (PyKey × α)) (g : PyKey × α → PyKey × β)
    (hg : ∀ e, (g e).1 = e.1) (k : PyKey) :
    (d.map g).find? (fun e => e.1 = k) = (d.find? (fun e => e.1 = k)).map g := by
  rw [List.find?_map g d]
  have hp : ((fun (e : PyKey × β) => decide (e.1 = k)) ∘ g) =
      (fun (e : PyKey × α) => decide (e.1 = k)) :=
    funext fun e => by simp [Function.comp, hg e]
  rw [hp]

lemma dictAppend_find_self {α : Type} (d : PyDict (List α)) (k : PyKey) (v : α) :
    (dictAppend d k v).find? (fun e => e.1 = k) =
      (d.find? (fun e => e.1 = k)).map (fun e => (e.1, e.2 ++ [v])) := by
  unfold dictAppend
  rw [find?_map_keyFixed _ _ (fun e => by split <;> simp_all) k]
  cases hf : d.find? (fun e => e.1 = k) with
  | none => rfl
  | some e =>
    have he : e.1 = k := by simpa using List.find?_some hf
    simp [he]

lemma dictAppend_find_other {α : Type} (d : PyDict (List α)) (k k1 : PyKey) (v : α)
    (h : k1 ≠ k) :
    (dictAppend d k v).find? (fun e => e.1 = k1) = d.find? (fun e => e.1 = k1) := by
  unfold dictAppend
  rw [find?_map_keyFixed _ _ (fun e => by split <;> simp_all) k1]
  cases hf : d.find? (fun e => e.1 = k1) with
  | none => rfl
  | some e =>
    have he : e.1 = k1 := by simpa using List.find?_some hf
    simp [he, h]

lemma dictSet_find_self {α : Type} (d : PyDict α) (k : PyKey) (v : α) :
    (dictSet d k v).find? (fun e => e.1 = k) = some (k, v) := by
  unfold dictSet
  split
  · next hany =>
    rw [find?_map_keyFixed _ _ (fun e => by split <;> simp_all) k]
    obtain ⟨e, hmem, he⟩ := List.any_eq_true.1 hany
    have hsome : (d.find? (fun e => e.1 = k)).isSome :=
      List.find?_isSome.2 ⟨e, hmem, he⟩
    cases hf : d.find? (fun e => e.1 = k) with
    | none => rw [hf] at hsome; cases hsome
    | some e0 =>
      have he0 : e0.1 = k := by simpa using List.find?_some hf
      simp [he0]
  · next hany =>
    rw [List.find?_append]
    have hnone : d.find? (fun e => e.1 = k) = none := by
      rw [List.find?_eq_none]
      intro e hmem he
      exact hany (List.any_eq_true.2 ⟨e, hmem, he⟩)
    rw [hnone]
    simp [List.find?]

lemma dictSet_find_other {α : Type} (d : PyDict α) (k k1 : PyKey) (v : α) (h : k1 ≠ k) :
    (dictSet d k v).find? (fun e => e.1 = k1) = d.find? (fun e => e.1 = k1) := by
  unfold dictSet
  split
  · rw [find?_map_keyFixed _ _ (fun e => by split <;> simp_all) k1]
    cases hf : d.find? (fun e => e.1 = k1) with
    | none => rfl
    | some e =>
      have he : e.1 = k1 := by simpa using List.find?_some hf
      simp [he, h]
  · rw [List.find?_append]
    cases hf : d.find? (fun e => e.1 = k1) with
    | none => simp [List.find?, Ne.symm h]
    | some e => rfl

lemma dictKeys_dictAppend {α : Type} (d : PyDict (List α)) (k : PyKey) (v : α) :
    dictKeys (dictAppend d k v) = dictKeys d := by
  unfold dictKeys dictAppend
  rw [List.map_map]
  exact List.map_congr_left (fun e _ => by dsimp [Function.comp]; split <;> rfl)

lemma dictKeys_dictSet {α : Type} (d : PyDict α) (k : PyKey) (v : α) :
    dictKeys (dictSet d k v) =
      if d.any (fun e => e.1 = k) then dictKeys d else dictKeys d ++ [k] := by
  unfold dictKeys dictSet
  split
  · rw [List.map_map]
    exact List.map_congr_left (fun e _ => by dsimp [Function.comp]; split <;> simp_all)
  · simp

lemma find?_of_mem_nodup {α : Type} (d : PyDict α) (hn : (dictKeys d).Nodup)
    (k : PyKey) (q : α) (hm : (k, q) ∈ d) :
    d.find? (fun e => e.1 = k) = some (k, q) := by
  induction d with
  | nil => cases hm
  | cons e tl ih =>
    simp only [dictKeys, List.map_cons, List.nodup_cons] at hn
    obtain ⟨hhead, htail⟩ := hn
    rcases List.mem_cons.1 hm with rfl | hm'
    · simp [List.find?]
    · have hk : e.1 ≠ k := fun hek => hhead (by
        rw [hek]
        exact List.mem_map.2 ⟨(k, q), hm', rfl⟩)
      rw [List.find?_cons_of_neg _ (by simp [hk])]
      exact ih htail hm'

/-! ## Lemmas about read_window_ids -/

lemma rwiAppendFold_keys (env : WMEnv) :
    ∀ (ws : List lpg) (d0 : PyDict (List (Int × String))),
      dictKeys (ws.foldl
        (fun d w => if env.checkWindow w.win_id then
          dictAppend d (PyKey.s (env.pidName w.pid)) (w.pid, w.win_id) else d) d0) =
      dictKeys d0 := by
  intro ws
  induction ws with
  | nil => intro d0; rfl
  | cons w rest ih =>
    intro d0
    simp only [List.foldl_cons]
    rw [ih]
    split
    · exact dictKeys_dictAppend d0 _ _
    · rfl

lemma rwiBase_fold_keys_shape (env : WMEnv) :
    ∀ (ws : List lpg) (d0 : PyDict (List (Int × String))),
      (∀ k ∈ dictKeys d0, ∃ s0, k = PyKey.s s0) →
      ∀ k ∈ dictKeys (ws.foldl
        (fun d w => if env.checkWindow w.win_id then
          dictSet d (PyKey.s (env.pidName w.pid)) [] else d) d0),
        ∃ s0, k = PyKey.s s0 := by
  intro ws
  induction ws with
  | nil => intro d0 h0; exact h0
  | cons w rest ih =>
    intro d0 h0
    simp only [List.foldl_cons]
    apply ih
    split
    · rw [dictKeys_dictSet]
      split
      · exact h0
      · intro k hk
        rcases List.mem_append.1 hk with hk | hk
        · exact h0 k hk
        · simp only [List.mem_singleton] at hk
          exact ⟨_, hk⟩
    · exact h0

lemma mem_dictKeys_iff_any {α : Type} (d : PyDict α) (k : PyKey) :
    k ∈ dictKeys d ↔ d.any (fun e => e.1 = k) = true := by
  unfold dictKeys
  rw [List.any_eq_true]
  constructor
  · intro hk
    obtain ⟨e, he, hek⟩ := List.mem_map.1 hk
    exact ⟨e, he, by simp [hek]⟩
  · rintro ⟨e, he, hek⟩
    simp only [decide_eq_true_eq] at hek
    exact List.mem_map.2 ⟨e, he, hek⟩

lemma rwiBase_fold_nodup (env : WMEnv) :
    ∀ (ws : List lpg) (d0 : PyDict (List (Int × String))),
      (dictKeys d0).Nodup →
      (dictKeys (ws.foldl
        (fun d w => if env.checkWindow w.win_id then
          dictSet d (PyKey.s (env.pidName w.pid)) [] else d) d0)).Nodup := by
  intro ws
  induction ws with
  | nil => intro d0 h0; exact h0
  | cons w rest ih =>
    intro d0 h0
    simp only [List.foldl_cons]
    apply ih
    split
    · rw [dictKeys_dictSet]
      split
      · exact h0
      · next hany =>
        have hnot : PyKey.s (env.pidName w.pid) ∉ dictKeys d0 := by
          rw [mem_dictKeys_iff_any]
          exact hany
        simp [List.nodup_append, h0, hnot]
    · exact h0

lemma read_window_ids_keys (env : WMEnv) (w_list : List lpg) :
    ∀ k ∈ dictKeys (read_window_ids env w_list), ∃ s0, k = PyKey.s s0 := by
  intro k hk
  rw [read_window_ids, rwiAppendFold_keys] at hk
  unfold rwiBase at hk
  exact rwiBase_fold_keys_shape env w_list [] (by intro k0 hk0; cases hk0) k hk

lemma read_window_ids_nodup (env : WMEnv) (w_list : List lpg) :
    (dictKeys (read_window_ids env w_list)).Nodup := by
  rw [read_window_ids, rwiAppendFold_keys]
  unfold rwiBase
  exact rwiBase_fold_nodup env w_list [] List.nodup_nil

lemma rwiAppendFold_lookup (env : WMEnv) (name : String) :
    ∀ (ws : List lpg) (d0 : PyDict (List (Int × String))),
      ((ws.foldl (fun d w => if env.checkWindow w.win_id then
          dictAppend d (PyKey.s (env.pidName w.pid)) (w.pid, w.win_id) else d) d0).find?
        (fun e => e.1 = PyKey.s name)).map (fun e => e.2) =
      ((d0.find? (fun e => e.1 = PyKey.s name)).map (fun e => e.2)).map
        (fun q => q ++ (ws.filter (fun w => env.checkWindow w.win_id &&
            env.pidName w.pid == name)).map (fun w => (w.pid, w.win_id))) := by
  intro ws
  induction ws with
  | nil =>
    intro d0
    simp only [List.foldl_nil, List.filter_nil]
    cases d0.find? (fun e => e.1 = PyKey.s name) <;> simp
  | cons w rest ih =>
    intro d0
    simp only [List.foldl_cons, List.filter_cons]
    by_cases hc : env.checkWindow w.win_id = true
    · by_cases hn : env.pidName w.pid = name
      · rw [if_pos hc, ih, hn, dictAppend_find_self]
        rw [if_pos (by simp [hc, hn])]
        cases d0.find? (fun e => e.1 = PyKey.s name) <;> simp
      · rw [if_pos hc, ih,
          dictAppend_find_other _ _ _ _ (fun heq => hn (by injection heq with h0; exact h0.symm))]
        rw [if_neg (by simp [hn])]
    · rw [if_neg hc, ih, if_neg (by simp [hc])]

lemma rwiBase_fold_lookup (env : WMEnv) (name : String) :
    ∀ (ws : List lpg) (d0 : PyDict (List (Int × String))),
      (ws.foldl (fun d w => if env.checkWindow w.win_id then
          dictSet d (PyKey.s (env.pidName w.pid)) [] else d) d0).find?
        (fun e => e.1 = PyKey.s name) =
      (if ∃ w ∈ ws, env.checkWindow w.win_id = true ∧ env.pidName w.pid = name
       then some (PyKey.s name, [])
       else d0.find? (fun e => e.1 = PyKey.s name)) := by
  intro ws
  induction ws with
  | nil =>
    intro d0
    simp
  | cons w rest ih =>
    intro d0
    simp only [List.foldl_cons]
    by_cases hc : env.checkWindow w.win_id = true
    · by_cases hn : env.pidName w.pid = name
      · subst hn
        rw [if_pos hc, ih,
          if_pos (show ∃ x ∈ w :: rest, env.checkWindow x.win_id = true ∧
              env.pidName x.pid = env.pidName w.pid from
            ⟨w, List.mem_cons_self w rest, hc, rfl⟩)]
        split
        · rfl
        · exact dictSet_find_self d0 (PyKey.s (env.pidName w.pid)) []
      · have hiff : (∃ x ∈ w :: rest,
            env.checkWindow x.win_id = true ∧ env.pidName x.pid = name) ↔
            (∃ x ∈ rest, env.checkWindow x.win_id = true ∧ env.pidName x.pid = name) := by
          constructor
          · rintro ⟨x, hx, hcx, hnx⟩
            rcases List.mem_cons.1 hx with rfl | hx'
            · exact absurd hnx hn
            · exact ⟨x, hx', hcx, hnx⟩
          · rintro ⟨x, hx, hcx, hnx⟩
            exact ⟨x, List.mem_cons_of_mem w hx, hcx, hnx⟩
        rw [if_pos hc, ih,
          dictSet_find_other _ _ _ _ (fun heq => hn (by injection heq with h0; exact h0.symm))]
        simp only [hiff]
    · have hiff : (∃ x ∈ w :: rest,
          env.checkWindow x.win_id = true ∧ env.pidName x.pid = name) ↔
          (∃ x ∈ rest, env.checkWindow x.win_id = true ∧ env.pidName x.pid = name) := by
        constructor
        · rintro ⟨x, hx, hcx, hnx⟩
          rcases List.mem_cons.1 hx with rfl | hx'
          · exact absurd hcx hc
          · exact ⟨x, hx', hcx, hnx⟩
        · rintro ⟨x, hx, hcx, hnx⟩
          exact ⟨x, List.mem_cons_of_mem w hx, hcx, hnx⟩
      rw [if_neg hc, ih]
      simp only [hiff]

lemma read_window_ids_lookup (env : WMEnv) (w_list : List lpg) (name : String) :
    ((read_window_ids env w_list).find? (fun e => e.1 = PyKey.s name)).map (fun e => e.2) =
      (if ∃ w ∈ w_list, env.checkWindow w.win_id = true ∧ env.pidName w.pid = name
       then some (((List.insertionSort (fun a b => a.pid ≤ b.pid) w_list).filter
           (fun w => env.checkWindow w.win_id && env.pidName w.pid == name)).map
           (fun w => (w.pid, w.win_id)))
       else none) := by
  rw [read_window_ids, rwiAppendFold_lookup]
  unfold rwiBase
  rw [rwiBase_fold_lookup]
  split
  · simp
  · simp

lemma insertionSort_pid_sorted (w_list : List lpg) :
    (List.insertionSort (fun a b => a.pid ≤ b.pid) w_list).Pairwise
      (fun a b => a.pid ≤ b.pid) := by
  haveI : IsTotal lpg (fun a b => a.pid ≤ b.pid) := ⟨fun a b => le_total a.pid b.pid⟩
  haveI : IsTrans lpg (fun a b => a.pid ≤ b.pid) := ⟨fun _ _ _ hab hbc => le_trans hab hbc⟩
  exact List.sorted_insertionSort (fun a b => a.pid ≤ b.pid) w_list

/-! ## Lemmas about the restore loop -/

lemma dict_no_int_key {α : Type} (d : PyDict α)
    (hkeys : ∀ k ∈ dictKeys d, ∃ s0, k = PyKey.s s0) (n : Nat) :
    d.any (fun e => e.1 = PyKey.i n) = false := by
  rw [Bool.eq_false_iff]
  intro hany
  obtain ⟨e, he, hek⟩ := List.any_eq_true.1 hany
  simp only [decide_eq_true_eq] at hek
  obtain ⟨s0, hs0⟩ := hkeys e.1 (List.mem_map.2 ⟨e, he, rfl⟩)
  rw [hek] at hs0
  cases hs0

lemma dictPop_int {α : Type} (d : PyDict α)
    (hkeys : ∀ k ∈ dictKeys d, ∃ s0, k = PyKey.s s0) (n : Nat) :
    dictPop d (PyKey.i n) = Except.error PyErr.keyError := by
  unfold dictPop
  rw [dict_no_int_key d hkeys n]
  rfl

lemma dictFind_int {α : Type} (d : PyDict α)
    (hkeys : ∀ k ∈ dictKeys d, ∃ s0, k = PyKey.s s0) (n : Nat) :
    dictFind d (PyKey.i n) = Except.error PyErr.keyError := by
  unfold dictFind
  have hnone : d.find? (fun e => e.1 = PyKey.i n) = none := by
    rw [List.find?_eq_none]
    intro e he hek
    simp only [decide_eq_true_eq] at hek
    obtain ⟨s0, hs0⟩ := hkeys e.1 (List.mem_map.2 ⟨e, he, rfl⟩)
    rw [hek] at hs0
    cases hs0
  rw [hnone]

lemma restoreStep_malformed (env : RestoreEnv) (opts : Opts)
    (running : PyDict (List (Int × String))) (si : Nat) (line : String)
    (h : (pySplit line).length ≠ 7) :
    restoreStep env opts running si line = ⟨[], [], some PyErr.typeError, running, si⟩ := by
  unfold restoreStep classifyLine
  rw [parseWlist_err line h]
  rfl

lemma restoreLoop_reports (env : RestoreEnv) (opts : Opts) :
    ∀ (lines : List String) (running : PyDict (List (Int × String))) (si : Nat),
      (restoreLoop env opts lines running si).reports = [] := by
  intro lines
  induction lines with
  | nil => intro running si; rfl
  | cons l rest ih =>
    intro running si
    simp only [restoreLoop]
    cases hs : (restoreStep env opts running si l).err with
    | some e => rfl
    | none => exact ih _ _

lemma restoreLoop_append (env : RestoreEnv) (opts : Opts) (ys : List String) :
    ∀ (xs : List String) (running : PyDict (List (Int × String))) (si : Nat),
      (restoreLoop env opts xs running si).err = none →
      restoreLoop env opts (xs ++ ys) running si =
        ⟨(restoreLoop env opts xs running si).decisions ++
            (restoreLoop env opts ys (restoreLoop env opts xs running si).running
              (restoreLoop env opts xs running si).spawnIdx).decisions,
          (restoreLoop env opts xs running si).cmds ++
            (restoreLoop env opts ys (restoreLoop env opts xs running si).running
              (restoreLoop env opts xs running si).spawnIdx).cmds,
          (restoreLoop env opts ys (restoreLoop env opts xs running si).running
            (restoreLoop env opts xs running si).spawnIdx).reports,
          (restoreLoop env opts ys (restoreLoop env opts xs running si).running
            (restoreLoop env opts xs running si).spawnIdx).running,
          (restoreLoop env opts ys (restoreLoop env opts xs running si).running
            (restoreLoop env opts xs running si).spawnIdx).spawnIdx,
          (restoreLoop env opts ys (restoreLoop env opts xs running si).running
            (restoreLoop env opts xs running si).spawnIdx).err⟩ := by
  intro xs
  induction xs with
  | nil =>
    intro running si _
    simp only [List.nil_append, restoreLoop, List.nil_append]
  | cons l rest ih =>
    intro running si h
    rw [restoreLoop] at h
    simp only [List.cons_append, restoreLoop]
    cases hs : (restoreStep env opts running si l).err with
    | some e =>
      rw [hs] at h
      cases h
    | none =>
      rw [hs] at h
      simp only at h
      simp only [List.append_eq]
      rw [ih _ _ h]
      simp [List.append_assoc]

lemma restoreStep_dry_vs (env : RestoreEnv) (o₁ o₂ : Opts)
    (h₁ : o₁.dry_run = true) (h₂ : o₂.dry_run = false)
    (running : PyDict (List (Int × String))) (si₁ si₂ : Nat) (line : String)
    (hkeys : ∀ k ∈ dictKeys running, ∃ s0, k = PyKey.s s0) :
    (restoreStep env o₁ running si₁ line).ds = (restoreStep env o₂ running si₂ line).ds ∧
    (restoreStep env o₁ running si₁ line).cs = [] ∧
    (restoreStep env o₁ running si₁ line).running = running ∧
    (restoreStep env o₁ running si₁ line).spawnIdx = si₁ ∧
    (restoreStep env o₂ running si₂ line).running = running ∧
    ((restoreStep env o₂ running si₂ line).err = none →
      (restoreStep env o₁ running si₁ line).err = none) := by
  unfold restoreStep
  cases hcl : classifyLine env running line with
  | error e => exact ⟨rfl, rfl, rfl, rfl, rfl, fun h0 => h0⟩
  | ok t =>
    obtain ⟨f, x, y, apps⟩ := t
    by_cases hmem : f.app ∈ apps
    · simp only [if_pos hmem, h₁, h₂, if_true, Bool.false_eq_true, if_false]
      rw [dictPop_int running hkeys (apps.indexOf f.app),
        dictFind_int running hkeys (apps.indexOf f.app)]
      simp
    · simp only [if_neg hmem, h₁, h₂, if_true, Bool.false_eq_true, if_false]
      simp

lemma restoreLoop_dry (env : RestoreEnv) (o₁ o₂ : Opts)
    (h₁ : o₁.dry_run = true) (h₂ : o₂.dry_run = false) :
    ∀ (lines : List String) (running : PyDict (List (Int × String))) (si₁ si₂ : Nat),
      (∀ k ∈ dictKeys running, ∃ s0, k = PyKey.s s0) →
      (restoreLoop env o₁ lines running si₁).cmds = [] ∧
      (∃ t, (restoreLoop env o₁ lines running si₁).decisions =
        (restoreLoop env o₂ lines running si₂).decisions ++ t) ∧
      ((restoreLoop env o₂ lines running si₂).err = none →
        (restoreLoop env o₁ lines running si₁).decisions =
          (restoreLoop env o₂ lines running si₂).decisions) := by
  intro lines
  induction lines with
  | nil =>
    intro running si₁ si₂ _
    exact ⟨rfl, ⟨[], rfl⟩, fun _ => rfl⟩
  | cons l rest ih =>
    intro running si₁ si₂ hkeys
    obtain ⟨hds, hcs, hr1, hsi1, hr2, herr⟩ :=
      restoreStep_dry_vs env o₁ o₂ h₁ h₂ running si₁ si₂ l hkeys
    simp only [restoreLoop]
    cases he1 : (restoreStep env o₁ running si₁ l).err with
    | some e1 =>
      have he2 : (restoreStep env o₂ running si₂ l).err ≠ none := by
        intro h0
        rw [herr h0] at he1
        cases he1
      cases he2' : (restoreStep env o₂ running si₂ l).err with
      | none => exact absurd he2' he2
      | some e2 =>
        refine ⟨hcs, ⟨[], by simp [hds]⟩, fun h0 => by cases h0⟩
    | none =>
      cases he2 : (restoreStep env o₂ running si₂ l).err with
      | some e2 =>
        obtain ⟨ihc, ⟨t0, iht⟩, _⟩ :=
          ih (restoreStep env o₁ running si₁ l).running
            (restoreStep env o₁ running si₁ l).spawnIdx si₂ (by rw [hr1]; exact hkeys)
        refine ⟨by simp [hcs, ihc], ?_, fun h0 => by cases h0⟩
        refine ⟨(restoreLoop env o₁ rest (restoreStep env o₁ running si₁ l).running
          (restoreStep env o₁ running si₁ l).spawnIdx).decisions, ?_⟩
        simp [hds]
      | none =>
        obtain ⟨ihc, ⟨t0, iht⟩, ihe⟩ :=
          ih (restoreStep env o₁ running si₁ l).running
            (restoreStep env o₁ running si₁ l).spawnIdx
            (restoreStep env o₂ running si₂ l).spawnIdx (by rw [hr1]; exact hkeys)
        rw [hr1] at ihc iht ihe
        rw [hr1, hr2]
        refine ⟨by simp [hcs, ihc], ?_, ?_⟩
        · exact ⟨t0, by simp only [hds, List.append_assoc, iht]⟩
        · intro h0
          simp only [hds]
          rw [ihe h0]

/-! ## Concrete scenario environments used by the claim instances -/

/-- Oracle environment in which every window is a normal window and every
process is named term. -/
def termWM : WMEnv := ⟨fun _ => true, fun _ => "term"⟩

/-- Snapshot with two term windows, listed with the higher pid first. -/
def termSnap : List lpg :=
  [⟨"0x2", "0", 102, "50", "50", "80", "24", "u", "t2"⟩,
   ⟨"0x1", "0", 101, "10", "10", "80", "24", "u", "t1"⟩]

/-- Spawn-time environment in which no new window ever appears. -/
def quietSpawn : SpawnEnv := ⟨"", fun _ => [], fun _ => []⟩

/-- Options of a plain restore run. -/
def restoreOpts : Opts := ⟨false, true, true, false⟩

/-- Options of a dry restore run. -/
def dryOpts : Opts := ⟨false, true, true, true⟩

/-- Restore environment for the two-term-records scenario of C1. -/
def c1Env : RestoreEnv :=
  ⟨[0, 0], termWM, termSnap,
   some ["term 101 0 10 10 80 24", "term 102 0 50 50 80 24"],
   fun _ => quietSpawn⟩

/-- Spawn environment in which the first poll sees one new window whose
process line contains the launched application name. -/
def c2SpawnEnv : SpawnEnv := ⟨"", fun _ => ["0x5 0 777"], fun _ => ["777 app1"]⟩

/-- Restore environment for the coordinate-correction scenario of C2:
no running windows, one saved record with y = 100. -/
def c2Env : RestoreEnv :=
  ⟨[0, 0], ⟨fun _ => true, fun _ => "nomatch"⟩, [],
   some ["app1 1 0 10 100 80 24"], fun _ => c2SpawnEnv⟩

/-- Persisted line of the C2 scenario with a variable saved y. -/
def c2Line (y : Int) : String :=
  String.mk ("app1 1 0 10 ".data ++ intChars y ++ " 80 24".data)

/-- C2 scenario environment with a variable saved y. -/
def c2EnvY (y : Int) : RestoreEnv :=
  ⟨[0, 0], ⟨fun _ => true, fun _ => "nomatch"⟩, [],
   some [c2Line y], fun _ => c2SpawnEnv⟩

/-- Spawn environment whose first poll sees a new window with no matching
process line, the failing input of C8. -/
def c8Env : SpawnEnv := ⟨"", fun _ => ["0xa 0 999"], fun _ => []⟩

/-- Restore environment for the dry-run divergence scenario of C5: two
records to spawn, and a spawn environment that raises on the first poll. -/
def c5Env : RestoreEnv :=
  ⟨[0, 0], ⟨fun _ => true, fun _ => "other"⟩, [],
   some ["appa 1 0 10 10 80 24", "appb 1 0 10 10 80 24"],
   fun _ => c8Env⟩

/-- Restore environment for the malformed-line scenario of C6: a good
line, a malformed line, then another good line. -/
def c6Env : RestoreEnv :=
  ⟨[0, 0], ⟨fun _ => true, fun _ => "other"⟩, [],
   some ["appa 1 0 10 10 80 24", "oops", "appb 1 0 10 10 80 24"],
   fun _ => quietSpawn⟩

/-- Restore environment with no persisted file, for C9. -/
def c9Env : RestoreEnv := ⟨[0, 0], termWM, termSnap, none, fun _ => quietSpawn⟩

/-- Does a command set a geometry whose y coordinate equals t? -/
def isGeomAtY (t : Int) : Cmd → Bool
  | Cmd.setGeometry _ _ y _ _ => y == t
  | _ => false

/-! ## Supporting lemmas for the C2 scenario -/

lemma pySplit_c2Line (y : Int) :
    pySplit (c2Line y) = ["app1", "1", "0", "10", intStr y, "80", "24"] := by
  have h1 : pySplitAux ("app1 1 0 10 ".data ++ (intChars y ++ " 80 24".data)) [] =
      ["app1".data, "1".data, "0".data, "10".data, intChars y, "80".data, "24".data] := by
    rw [show "app1 1 0 10 ".data ++ (intChars y ++ " 80 24".data) =
        "app1".data ++ (List.replicate (0 + 1) ' ' ++ ("1".data ++ (List.replicate (0 + 1) ' ' ++
          ("0".data ++ (List.replicate (0 + 1) ' ' ++ ("10".data ++ (List.replicate (0 + 1) ' ' ++
            (intChars y ++ (List.replicate (0 + 1) ' ' ++ ("80".data ++ (List.replicate (0 + 1) ' ' ++
              "24".data))))))))))) from rfl]
    rw [pySplitAux_token "app1".data _ 0 (by decide) (by decide),
      pySplitAux_token "1".data _ 0 (by decide) (by decide),
      pySplitAux_token "0".data _ 0 (by decide) (by decide),
      pySplitAux_token "10".data _ 0 (by decide) (by decide),
      pySplitAux_token (intChars y) _ 0 (intChars_nonempty y) (intChars_noWS y),
      pySplitAux_token "80".data _ 0 (by decide) (by decide),
      pySplitAux_last "24".data (by decide) (by decide)]
  show (pySplitAux (c2Line y).data []).map String.mk = _
  rw [show (c2Line y).data = "app1 1 0 10 ".data ++ (intChars y ++ " 80 24".data) from by
    unfold c2Line
    rw [List.append_assoc]]
  rw [h1]
  rfl

lemma pyIntE_intStr (y : Int) : pyIntE (intStr y) = Except.ok y := by
  unfold pyIntE
  rw [pyInt_intStr]

lemma c2_classify (y : Int) :
    classifyLine (c2EnvY y) [] (c2Line y) =
      Except.ok (⟨"app1", "1", "0", "10", intStr y, "80", "24"⟩, 10 - 0,
        y - 0 - WIN_TITLE_HEIGHT, []) := by
  have hparse : parseWlist (c2Line y) =
      Except.ok ⟨"app1", "1", "0", "10", intStr y, "80", "24"⟩ := by
    unfold parseWlist
    rw [pySplit_c2Line]
  unfold classifyLine
  rw [hparse]
  show (do
    let xi ← pyIntE "10"
    let r0 ← pyGet (c2EnvY y).res 0
    let yi ← pyIntE (intStr y)
    let r1 ← pyGet (c2EnvY y).res 1
    let apps ← (dictKeys ([] : PyDict (List (Int × String)))).mapM keyHead
    pure (⟨"app1", "1", "0", "10", intStr y, "80", "24"⟩, xi - r0,
      yi - r1 - WIN_TITLE_HEIGHT, apps)
    : Except PyErr (wlist × Int × Int × List String)) = _
  rw [pyIntE_intStr]
  rfl

lemma c2_step (y : Int) :
    restoreStep (c2EnvY y) restoreOpts [] 0 (c2Line y) =
      ⟨[Decision.spawn "app1"],
       [Cmd.spawnProc "app1 ", Cmd.sleepHalf, Cmd.removeMaxHorz "0x5",
        Cmd.removeMaxVert "0x5", Cmd.setDesktop "0x5" "0",
        Cmd.setGeometry "0x5" (10 - 0) (y - 0 - WIN_TITLE_HEIGHT - 35) "80" "24"],
       none, [], 1⟩ := by
  unfold restoreStep
  rw [c2_classify]
  rfl

/-! ## Claim theorems -/

/-- C1: the spec claims that with two saved term records and a
RunningIndex holding two queued term handles the first record consumes
the lower-pid handle, the second the remaining one, and no spawn occurs.
The code computes `apps = [a[0] for a in running]`, the first characters
of the dict keys, so the lookup never matches a multi-character app name:
both records are classified spawn, two processes are spawned, and no
reposition command is ever issued.  This theorem evaluates the code at
exactly that input: the index holds the two handles in ascending pid
order, yet both decisions are spawns and the command trace is two spawns
with their poll sleeps and no window command. -/
theorem C1_match_never_taken :
    read_window_ids termWM termSnap = [(PyKey.s "term", [(101, "0x1"), (102, "0x2")])] ∧
    (run_remembered c1Env restoreOpts).decisions =
      [Decision.spawn "term", Decision.spawn "term"] ∧
    (run_remembered c1Env restoreOpts).cmds =
      Cmd.spawnProc "term " :: List.replicate 30 Cmd.sleepHalf ++
        Cmd.spawnProc "term " :: List.replicate 30 Cmd.sleepHalf := by
  decide

/-- C2 counterexample: with viewport offset {0,0} and title-bar height
24, a saved record with y = 100 is restored with a geometry command whose
target y is 41, not 76 as the claim states: `reposition_window` subtracts
a further v_offset of 35.  No geometry command with y = 76 is issued. -/
theorem C2_claim_false_at_y100 :
    (run_remembered c2Env restoreOpts).cmds =
      [Cmd.spawnProc "app1 ", Cmd.sleepHalf, Cmd.removeMaxHorz "0x5",
       Cmd.removeMaxVert "0x5", Cmd.setDesktop "0x5" "0",
       Cmd.setGeometry "0x5" 10 41 "80" "24"] ∧
    (run_remembered c2Env restoreOpts).cmds.any (isGeomAtY (100 - 24)) = false := by
  decide

/-- C2 amended: with viewport offset {0,0} and title-bar height 24, the
geometry command issued during restore uses target y equal to the saved
y minus 59 (the 24 title-bar correction applied in run_remembered plus
the additional v_offset 35 subtracted inside reposition_window), width
and height unchanged; in particular a saved y = 100 restores to 41.
Proved for the one-record scenario for every saved y. -/
theorem C2_target_y_corrected (y : Int) :
    (run_remembered (c2EnvY y) restoreOpts).cmds =
      [Cmd.spawnProc "app1 ", Cmd.sleepHalf, Cmd.removeMaxHorz "0x5",
       Cmd.removeMaxVert "0x5", Cmd.setDesktop "0x5" "0",
       Cmd.setGeometry "0x5" 10 (y - 59) "80" "24"] := by
  have hy : y - 0 - WIN_TITLE_HEIGHT - 35 = y - 59 := by
    unfold WIN_TITLE_HEIGHT
    omega
  have hrun : run_remembered (c2EnvY y) restoreOpts =
      restoreLoop (c2EnvY y) restoreOpts [c2Line y] [] 0 := rfl
  rw [hrun]
  simp only [restoreLoop, c2_step]
  rw [show (10 - 0 : Int) = 10 from rfl, hy]
  rfl

/-- C3 counterexample: the persisted format has seven whitespace-separated
fields, not six: a six-field line (no pid) raises the field-count error,
while the seven-field line produced by save parses with the pid among the
parsed fields. -/
theorem C3_six_field_line_rejected :
    parseWlist "term 0 10 10 80 24" = Except.error PyErr.typeError ∧
    parseWlist "term 123 0 10 10 80 24" =
      Except.ok ⟨"term", "123", "0", "10", "10", "80", "24"⟩ := by
  decide

/-- C3 amended: load parses a line by splitting it on whitespace into
exactly 7 fields, namely app_name, pid, desktop_id, x, y, width, height
(the process id is among the parsed fields); a line parses successfully
if and only if the split yields exactly 7 fields. -/
theorem C3_seven_fields (line : String) :
    (∃ f, parseWlist line = Except.ok f ∧
       pySplit line = [f.app, f.pid, f.dtop, f.x, f.y, f.w, f.h]) ↔
    (pySplit line).length = 7 :=
  parseWlist_ok_iff line

/-- C4: for every layout of well-formed records (app names non-empty and
whitespace-free), loading the lines produced by save yields exactly as
many records, in the same order, whose app_name, desktop_id, x, y, width
and height equal those of the corresponding saved records (the numeric
fields through the code's own int() conversion). -/
theorem C4_save_load_roundtrip (recs : List Relevant)
    (hwf : ∀ r ∈ recs, wellFormedApp r.app) :
    loadLines (saveLines recs) = Except.ok (recs.map wlistOf) ∧
    (recs.map wlistOf).length = recs.length ∧
    ∀ r ∈ recs, (wlistOf r).app = r.app ∧
      pyInt (wlistOf r).dtop = some r.dtop ∧ pyInt (wlistOf r).x = some r.x ∧
      pyInt (wlistOf r).y = some r.y ∧ pyInt (wlistOf r).w = some r.w ∧
      pyInt (wlistOf r).h = some r.h := by
  refine ⟨loadLines_saveLines recs hwf, by simp, ?_⟩
  intro r _
  exact ⟨rfl, pyInt_intStr _, pyInt_intStr _, pyInt_intStr _, pyInt_intStr _,
    pyInt_intStr _⟩

/-- C4 witness: the round trip evaluated on a concrete two-record layout
with a negative x coordinate. -/
theorem C4_save_load_roundtrip_witness :
    (∀ r ∈ [(⟨"term", 101, 0, 10, 10, 80, 24⟩ : Relevant),
            ⟨"emacs", 5, 1, -3, 200, 640, 480⟩], wellFormedApp r.app) ∧
    loadLines (saveLines [(⟨"term", 101, 0, 10, 10, 80, 24⟩ : Relevant),
        ⟨"emacs", 5, 1, -3, 200, 640, 480⟩]) =
      Except.ok ([(⟨"term", 101, 0, 10, 10, 80, 24⟩ : Relevant),
        ⟨"emacs", 5, 1, -3, 200, 640, 480⟩].map wlistOf) := by
  have h : ∀ r ∈ [(⟨"term", 101, 0, 10, 10, 80, 24⟩ : Relevant),
      ⟨"emacs", 5, 1, -3, 200, 640, 480⟩], wellFormedApp r.app := by decide
  exact ⟨h, (C4_save_load_roundtrip _ h).1⟩

/-- C5 counterexample: with identical inputs, the dry run records spawn
decisions for both saved records, while the non-dry run aborts inside the
first Launch-and-Locate call (IndexError from the poll loop's nested
comprehension) and never reaches the second record: the two passes do not
make the same match/spawn decisions. -/
theorem C5_decisions_diverge :
    (run_remembered c5Env dryOpts).decisions =
      [Decision.spawn "appa", Decision.spawn "appb"] ∧
    (run_remembered c5Env restoreOpts).decisions = [Decision.spawn "appa"] ∧
    (run_remembered c5Env restoreOpts).err = some PyErr.indexError := by
  decide

/-- C5 amended: a dry-run pass issues zero window-manager mutating
commands and zero spawns, and its decision list extends the non-dry
pass's decisions (the two lists are equal whenever the non-dry pass
completes without a raised exception; the non-dry pass can stop early
because a spawn's poll loop may raise). -/
theorem C5_dry_run_effects (env : RestoreEnv) (o₁ o₂ : Opts)
    (h₁ : o₁.dry_run = true) (h₂ : o₂.dry_run = false) :
    (run_remembered env o₁).cmds = [] ∧
    (∃ t, (run_remembered env o₁).decisions = (run_remembered env o₂).decisions ++ t) ∧
    ((run_remembered env o₂).err = none →
      (run_remembered env o₁).decisions = (run_remembered env o₂).decisions) := by
  unfold run_remembered
  cases hf : env.fileLines with
  | none => exact ⟨rfl, ⟨[], rfl⟩, fun _ => rfl⟩
  | some lines =>
    exact restoreLoop_dry env o₁ o₂ h₁ h₂ lines
      (read_window_ids env.wm env.w_list) 0 0 (read_window_ids_keys env.wm env.w_list)

/-- C5 witness: the amended statement applied to the two-term-records
environment with the concrete dry and non-dry option records. -/
theorem C5_dry_run_effects_witness :
    dryOpts.dry_run = true ∧ restoreOpts.dry_run = false ∧
    (run_remembered c1Env dryOpts).cmds = [] := by
  exact ⟨rfl, rfl, (C5_dry_run_effects c1Env dryOpts restoreOpts rfl rfl).1⟩

/-- C6 counterexample: with a well-formed line before the malformed one,
the restore pass has already applied the first record (its spawn and its
thirty poll sleeps are in the command trace) before aborting with the
parse error, contradicting the claim that no record from the file is
applied. -/
theorem C6_earlier_records_applied :
    (run_remembered c6Env restoreOpts).err = some PyErr.typeError ∧
    (run_remembered c6Env restoreOpts).decisions = [Decision.spawn "appa"] ∧
    (run_remembered c6Env restoreOpts).cmds =
      Cmd.spawnProc "appa " :: List.replicate 30 Cmd.sleepHalf := by
  decide

/-- C6 amended: the load aborts at the first malformed line (field count
different from 7) with the parse error; the records before the malformed
line have already been applied (their decisions and commands stand), and
no record after it is processed. -/
theorem C6_abort_midway (env : RestoreEnv) (opts : Opts) (pre post : List String)
    (bad : String)
    (hfile : env.fileLines = some (pre ++ bad :: post))
    (hpre : (restoreLoop env opts pre (read_window_ids env.wm env.w_list) 0).err = none)
    (hbad : (pySplit bad).length ≠ 7) :
    (run_remembered env opts).err = some PyErr.typeError ∧
    (run_remembered env opts).decisions =
      (restoreLoop env opts pre (read_window_ids env.wm env.w_list) 0).decisions ∧
    (run_remembered env opts).cmds =
      (restoreLoop env opts pre (read_window_ids env.wm env.w_list) 0).cmds := by
  have hrun : run_remembered env opts =
      restoreLoop env opts (pre ++ bad :: post) (read_window_ids env.wm env.w_list) 0 := by
    unfold run_remembered
    rw [hfile]
  have hb : restoreLoop env opts (bad :: post)
      (restoreLoop env opts pre (read_window_ids env.wm env.w_list) 0).running
      (restoreLoop env opts pre (read_window_ids env.wm env.w_list) 0).spawnIdx =
      ⟨[], [], [],
       (restoreLoop env opts pre (read_window_ids env.wm env.w_list) 0).running,
       (restoreLoop env opts pre (read_window_ids env.wm env.w_list) 0).spawnIdx,
       some PyErr.typeError⟩ := by
    simp only [restoreLoop, restoreStep_malformed env opts _ _ bad hbad]
  rw [hrun, restoreLoop_append env opts (bad :: post) pre _ 0 hpre, hb]
  simp

/-- C6 witness: the amended statement applied to the concrete file with a
good line, a malformed line, then another good line. -/
theorem C6_abort_midway_witness :
    (restoreLoop c6Env restoreOpts ["appa 1 0 10 10 80 24"]
       (read_window_ids c6Env.wm c6Env.w_list) 0).err = none ∧
    (pySplit "oops").length ≠ 7 ∧
    (run_remembered c6Env restoreOpts).err = some PyErr.typeError := by
  refine ⟨by decide, by decide, ?_⟩
  exact (C6_abort_midway c6Env restoreOpts ["appa 1 0 10 10 80 24"]
    ["appb 1 0 10 10 80 24"] "oops" rfl (by decide) (by decide)).1

/-- C7: every queue of the RunningIndex built from a snapshot is keyed by
an application name and contains exactly the handles of the retained
windows of that name, taken from the snapshot sorted by ascending pid, so
queue pids are ascending; every retained window's name has a queue.  The
build is a pure function of the snapshot, so repeated builds on an
unchanged running set yield the same queues in the same order. -/
theorem C7_running_index_grouped_sorted (env : WMEnv) (w_list : List lpg) :
    (∀ k q, (k, q) ∈ read_window_ids env w_list →
      ∃ name, k = PyKey.s name ∧
        q = ((List.insertionSort (fun a b => a.pid ≤ b.pid) w_list).filter
            (fun w => env.checkWindow w.win_id && env.pidName w.pid == name)).map
            (fun w => (w.pid, w.win_id)) ∧
        (q.map Prod.fst).Pairwise (fun a b => a ≤ b)) ∧
    (∀ w ∈ w_list, env.checkWindow w.win_id = true →
      ∃ q, (PyKey.s (env.pidName w.pid), q) ∈ read_window_ids env w_list) := by
  constructor
  · intro k q hm
    obtain ⟨name, hk⟩ := read_window_ids_keys env w_list k
      (List.mem_map.2 ⟨(k, q), hm, rfl⟩)
    subst hk
    have hfind := find?_of_mem_nodup _ (read_window_ids_nodup env w_list) _ _ hm
    have hlook := read_window_ids_lookup env w_list name
    rw [hfind] at hlook
    refine ⟨name, rfl, ?_⟩
    split at hlook
    · have hq : q = ((List.insertionSort (fun a b => a.pid ≤ b.pid) w_list).filter
          (fun w => env.checkWindow w.win_id && env.pidName w.pid == name)).map
          (fun w => (w.pid, w.win_id)) := by
        simpa using hlook
      refine ⟨hq, ?_⟩
      rw [hq, List.map_map, List.pairwise_map]
      exact (insertionSort_pid_sorted w_list).filter _
    · simp at hlook
  · intro w hw hcw
    have hlook := read_window_ids_lookup env w_list (env.pidName w.pid)
    rw [if_pos ⟨w, hw, hcw, rfl⟩] at hlook
    cases hf : (read_window_ids env w_list).find?
        (fun e => e.1 = PyKey.s (env.pidName w.pid)) with
    | none => rw [hf] at hlook; cases hlook
    | some e =>
      have he1 : e.1 = PyKey.s (env.pidName w.pid) := by simpa using List.find?_some hf
      have hmem := List.mem_of_find?_eq_some hf
      refine ⟨e.2, ?_⟩
      rw [← he1]
      simpa using hmem

/-- C7 witness: the grouped, pid-sorted queue of the two-term-windows
snapshot, obtained by applying the theorem at its concrete entry. -/
theorem C7_running_index_grouped_sorted_witness :
    (PyKey.s "term", [((101 : Int), "0x1"), ((102 : Int), "0x2")]) ∈
        read_window_ids termWM termSnap ∧
    (∃ name, PyKey.s "term" = PyKey.s name ∧
      [((101 : Int), "0x1"), ((102 : Int), "0x2")] =
        ((List.insertionSort (fun a b => a.pid ≤ b.pid) termSnap).filter
          (fun w => termWM.checkWindow w.win_id && termWM.pidName w.pid == name)).map
          (fun w => (w.pid, w.win_id)) ∧
      ([((101 : Int), "0x1"), ((102 : Int), "0x2")].map Prod.fst).Pairwise
        (fun a b => a ≤ b)) := by
  have hm : (PyKey.s "term", [((101 : Int), "0x1"), ((102 : Int), "0x2")]) ∈
      read_window_ids termWM termSnap := by decide
  exact ⟨hm, (C7_running_index_grouped_sorted termWM termSnap).1 _ _ hm⟩

/-- C8: the spec claims the poll loop stops only on the first matching
new window and otherwise keeps polling up to 30 attempts, exiting
silently.  The nested comprehension makes `procs` non-empty whenever any
new window appears, matching or not, and `procs[0][0][1]` then raises
IndexError for a non-matching one: at the failing input (one new window
whose pid matches no process line containing the app name) the call
aborts with IndexError after its first poll instead of continuing. -/
theorem C8_poll_crashes_on_unmatched_window :
    open_appwindow c8Env "term" "0" 10 10 "80" "24" =
      ([Cmd.spawnProc "term ", Cmd.sleepHalf], some PyErr.indexError) := by
  decide

/-- C9: when the persisted file does not exist, the restore run reports a
message and issues no window-manager command, no spawn and no decision. -/
theorem C9_missing_file_reports_and_aborts (env : RestoreEnv) (opts : Opts)
    (h : env.fileLines = none) :
    (run_remembered env opts).cmds = [] ∧
    (run_remembered env opts).decisions = [] ∧
    (run_remembered env opts).reports = ["File not found"] := by
  unfold run_remembered
  rw [h]
  exact ⟨rfl, rfl, rfl⟩

/-- C9 witness: the missing-file behaviour at a concrete environment. -/
theorem C9_missing_file_reports_and_aborts_witness :
    c9Env.fileLines = none ∧ (run_remembered c9Env restoreOpts).cmds = [] :=
  ⟨rfl, (C9_missing_file_reports_and_aborts c9Env restoreOpts rfl).1⟩

/-- C10: for every command-line invocation the parsed no_file option is
true (the flag is store-true with default True and nothing unsets it), so
read_windows always emits stdout lines and never the file write. -/
theorem C10_no_file_unreachable (args : List String) (env : WMEnv) (w_list : List lpg) :
    (parse_args args).no_file = true ∧
    ∀ e ∈ (read_windows env w_list (parse_args args)).1,
      ∃ s0, e = SaveEff.stdoutLine s0 := by
  have hnf : ∀ (o : Opts), o.no_file = true →
      ∀ (as : List String), (as.foldl argStep o).no_file = true := by
    intro o ho as
    induction as generalizing o with
    | nil => exact ho
    | cons a rest ih =>
      simp only [List.foldl_cons]
      apply ih
      unfold argStep
      repeat' split
      all_goals simp [ho]
  have h1 : (parse_args args).no_file = true := hnf defaultOpts rfl args
  refine ⟨h1, ?_⟩
  intro e he
  unfold read_windows at he
  cases hrel : relevantOf env w_list with
  | error er =>
    rw [hrel] at he
    simp at he
  | ok relevant =>
    rw [hrel] at he
    change e ∈ (if (parse_args args).no_file = true then
        (relevant.map (fun r => SaveEff.stdoutLine (format_relevant r)), (none : Option PyErr))
      else ([SaveEff.fileWrite (relevant.map format_relevant)], none)).1 at he
    rw [if_pos h1] at he
    change e ∈ relevant.map (fun r => SaveEff.stdoutLine (format_relevant r)) at he
    obtain ⟨r, _, hre⟩ := List.mem_map.1 he
    exact ⟨format_relevant r, hre.symm⟩

end WSaver
